import Mathlib

/-!
# Verification of `src/app/svitlo_monitor.py`

A shallow embedding of the svitlo-monitor program: a polling loop that
fetches a power-outage schedule per queue, normalizes it to the
today-or-future subset (`extract_relevant`), compares it with the cached
last snapshot, and classifies the cycle as ignored / cancelled / changed /
unchanged (`check_and_alert`), sending a Telegram notification for the
cancelled and changed outcomes.

Machine-level conventions of the embedding:
* Python `None` is `Option.none`; fallible code returns `Except Unit`.
* Wall-clock reads (`datetime.now()`) are threaded as a single `today : Date`
  parameter (the spec mandates one `asOfDate` snapshot per cycle).
* Python dicts with string keys are association lists with unique keys;
  dict equality is `dictBeq` (key-set plus value equality, order-free).
* Side effects (Telegram send, cache write, sleeps) are recorded in the
  returned `RunResult` instead of performed.
-/

namespace Svitlo

/-- A calendar date, as produced by `datetime.strptime(s, "%d.%m.%Y").date()`. -/
structure Date where
  year : Nat
  month : Nat
  day : Nat
deriving DecidableEq

/-- Lexicographic strict order on dates, mirroring Python `date.__lt__`. -/
def dateLtB (a b : Date) : Bool :=
  if a.year ≠ b.year then decide (a.year < b.year)
  else if a.month ≠ b.month then decide (a.month < b.month)
  else decide (a.day < b.day)

def isDigit09 (c : Char) : Bool := decide ('0' ≤ c) && decide (c ≤ '9')

def isDigit19 (c : Char) : Bool := decide ('1' ≤ c) && decide (c ≤ '9')

/-- Numeric value of an ASCII digit. -/
def dval (c : Char) : Nat := c.toNat - 48

/-- The `%d` field of CPython `strptime`: `3[01]|[1-2]\d|0[1-9]|[1-9]| [1-9]`,
i.e. a two-digit value 01..31, a single digit 1..9, or a space-padded digit. -/
def parseDayField : List Char → Option Nat
  | [c] => if isDigit19 c then some (dval c) else none
  | [c1, c2] =>
    if c1 = ' ' then (if isDigit19 c2 then some (dval c2) else none)
    else if isDigit09 c1 && isDigit09 c2 then
      let v := dval c1 * 10 + dval c2
      if 1 ≤ v ∧ v ≤ 31 then some v else none
    else none
  | _ => none

/-- The `%m` field of CPython `strptime`: `1[0-2]|0[1-9]|[1-9]`. -/
def parseMonthField : List Char → Option Nat
  | [c] => if isDigit19 c then some (dval c) else none
  | [c1, c2] =>
    if isDigit09 c1 && isDigit09 c2 then
      let v := dval c1 * 10 + dval c2
      if 1 ≤ v ∧ v ≤ 12 then some v else none
    else none
  | _ => none

/-- The `%Y` field of CPython `strptime`: exactly four digits. -/
def parseYearField : List Char → Option Nat
  | [c1, c2, c3, c4] =>
    if isDigit09 c1 && isDigit09 c2 && isDigit09 c3 && isDigit09 c4 then
      some (dval c1 * 1000 + dval c2 * 100 + dval c3 * 10 + dval c4)
    else none
  | _ => none

def isLeap (y : Nat) : Bool :=
  (decide (y % 4 = 0) && decide (y % 100 ≠ 0)) || decide (y % 400 = 0)

def daysInMonth (y m : Nat) : Nat :=
  if m = 2 then (if isLeap y then 29 else 28)
  else if m = 4 ∨ m = 6 ∨ m = 9 ∨ m = 11 then 30
  else 31

/-- Split a character list at every '.' (the literal separators of the
format string "%d.%m.%Y"). -/
def splitDots : List Char → List (List Char)
  | [] => [[]]
  | c :: rest =>
    let r := splitDots rest
    if c = '.' then [] :: r
    else
      match r with
      | [] => [[c]]
      | h :: tl => (c :: h) :: tl

/-- `datetime.strptime(s, "%d.%m.%Y").date()` as a total function:
`none` when strptime (or the datetime constructor) raises. The day is
validated against the month length and the year against MINYEAR = 1. -/
def parseDate (s : String) : Option Date :=
  match splitDots s.data with
  | [ds, ms, ys] =>
    match parseDayField ds, parseMonthField ms, parseYearField ys with
    | some d, some m, some y =>
      if 1 ≤ y ∧ d ≤ daysInMonth y m then some ⟨y, m, d⟩ else none
    | _, _, _ => none
  | _ => none

def pad2 (n : Nat) : String := if n < 10 then "0" ++ toString n else toString n

def pad4 (n : Nat) : String :=
  if n < 10 then "000" ++ toString n
  else if n < 100 then "00" ++ toString n
  else if n < 1000 then "0" ++ toString n
  else toString n

/-- `datetime.now().strftime("%d.%m.%Y")` applied to an explicit date. -/
def dateToStr (d : Date) : String :=
  pad2 d.day ++ "." ++ pad2 d.month ++ "." ++ pad4 d.year

/-- JSON values, as produced by `requests.Response.json()`. -/
inductive Json where
  | null
  | bool (b : Bool)
  | num (n : Int)
  | str (s : String)
  | arr (elems : List Json)
  | obj (fields : List (String × Json))

def Json.isNull : Json → Bool
  | .null => true
  | _ => false

/-- The body of an HTTP response, at the JSON-parsing boundary: either it
parses to a JSON value or `r.json()` raises (malformed). -/
inductive BodyContent where
  | malformed (preview : String)
  | json (v : Json)

/-- The observable input to one `requests.get` call inside
`fetch_schedule`: either the request itself raised, or a response with a
status code, a Content-Type header value ("" when missing) and a body. -/
inductive FetchInput where
  | transportError
  | response (status : Nat) (contentType : String) (body : BodyContent)

/-- `pat` occurs as a contiguous sublist of `l` (Python's `in` on strings). -/
def listIsPrefixOfB : List Char → List Char → Bool
  | [], _ => true
  | _ :: _, [] => false
  | a :: as, b :: bs => a = b && listIsPrefixOfB as bs

def listContainsB (pat l : List Char) : Bool :=
  match l with
  | [] => listIsPrefixOfB pat []
  | _ :: rest => listIsPrefixOfB pat l || listContainsB pat rest

/-- Python `pat in hay` for strings. -/
def strContainsB (hay pat : String) : Bool := listContainsB pat.data hay.data

/-- `fetch_schedule(url)` from the source, as a function of the observable
HTTP interaction.  Returns the Python return value: `none` on transport
error, on HTTP 403/503, on a non-JSON Content-Type, on a JSON decode
failure — and also when the body is the JSON literal `null`, because
`r.json()` then returns Python `None`, the same value as the sentinel. -/
def fetch_schedule : FetchInput → Option Json
  | .transportError => none
  | .response status ct body =>
    if status = 403 ∨ status = 503 then none
    else if !strContainsB ct "application/json" then none
    else
      match body with
      | .malformed _ => none
      | .json v => if v.isNull then none else some v

/-- One outage interval as stored in a day's `queues` map.  The four
projected fields are kept as optional values (`x.get(key)` is `none` when
the key is absent); `extra` stands for any further fields the upstream may
send, which the projection drops. -/
structure RawInterval where
  shutdownHours : Option String
  fromTime : Option String
  toTime : Option String
  status : Option String
  extra : List (String × String)
deriving DecidableEq

/-- One element of the raw schedule list: `eventDate` and
`scheduleApprovedSince` are `none` when the key is absent; `queues` is the
per-queue map of outage intervals (an absent `queues` key behaves as the
empty map, as `day.get("queues", {})` does). -/
structure DayEntry where
  eventDate : Option String
  scheduleApprovedSince : Option String
  queues : List (String × List RawInterval)
deriving DecidableEq

/-- A raw schedule: the upstream JSON body decoded as a list of day objects. -/
abbrev RawSchedule := List DayEntry

/-- The projection of an interval to `{shutdownHours, from, to, status}`. -/
structure SimplInterval where
  shutdownHours : Option String
  fromTime : Option String
  toTime : Option String
  status : Option String
deriving DecidableEq

def simplify (x : RawInterval) : SimplInterval :=
  ⟨x.shutdownHours, x.fromTime, x.toTime, x.status⟩

/-- First-match lookup in an association list (Python dict indexing; the
dicts built here have unique keys). -/
def alookup {α : Type} : List (String × α) → String → Option α
  | [], _ => none
  | (k', v) :: rest, k => if k' = k then some v else alookup rest k

/-- Python `d[k] = v`: replace the value at an existing key in place,
otherwise append the new pair at the end. -/
def dictInsert {α : Type} : List (String × α) → String → α → List (String × α)
  | [], k, v => [(k, v)]
  | (k', v') :: rest, k, v =>
    if k' = k then (k, v) :: rest else (k', v') :: dictInsert rest k v

/-- The date-string-keyed mapping produced by `extract_relevant`. -/
abbrev NormMap := List (String × List SimplInterval)

/-- Python `==` on the two normalized dicts: same keys with equal values,
irrespective of insertion order (both maps have unique keys). -/
def dictBeq (a b : NormMap) : Bool :=
  a.all (fun p => decide (alookup b p.1 = some p.2)) &&
  b.all (fun p => decide (alookup a p.1 = some p.2))

/-- The interval list a day contributes for `queue`:
`day.get("queues", {}).get(queue, [])` followed by the projection. -/
def projectDay (day : DayEntry) (queue : String) : List SimplInterval :=
  ((alookup day.queues queue).getD []).map simplify

/-- The loop body of `extract_relevant`, threading the result dict. -/
def extractGo : RawSchedule → String → Date → NormMap → NormMap
  | [], _, _, acc => acc
  | day :: rest, q, t, acc =>
    match day.eventDate with
    | none => extractGo rest q t acc
    | some ds =>
      match parseDate ds with
      | none => extractGo rest q t acc
      | some dt =>
        if dateLtB dt t then extractGo rest q t acc
        else extractGo rest q t (dictInsert acc ds (projectDay day q))

/-- `extract_relevant(schedule, queue)` from the source, with the
`datetime.now().date()` read threaded as `today`: keeps the days whose
`eventDate` parses as DD.MM.YYYY and is today-or-future, mapping the date
string to the projected interval list for `queue`.  A day whose
`eventDate` key is absent raises inside `strptime` and is skipped by the
same `except: continue`. -/
def extract_relevant (schedule : RawSchedule) (queue : String) (today : Date) : NormMap :=
  extractGo schedule queue today []

/-- The dict comprehension at the FIX comment in `check_and_alert`: drop
keys of `last_relevant` that are strictly past; `strptime` on a key that
does not parse raises out of the comprehension. -/
def refilterLast : NormMap → Date → Except Unit NormMap
  | [], _ => .ok []
  | (d, v) :: rest, t =>
    match parseDate d with
    | none => .error ()
    | some dt =>
      match refilterLast rest t with
      | .error e => .error e
      | .ok r => .ok (if dateLtB dt t then r else (d, v) :: r)

/-- The generator expression
`all(strptime(d).date() < now.date() for d in last_dates if d)`:
falsy dates (absent or "") are skipped; the first non-parsing date raises;
the first today-or-future date short-circuits `all` to `False`. -/
def lastOnlyPast : List (Option String) → Date → Except Unit Bool
  | [], _ => .ok true
  | none :: rest, t => lastOnlyPast rest t
  | some d :: rest, t =>
    if d = "" then lastOnlyPast rest t
    else
      match parseDate d with
      | none => .error ()
      | some dt => if dateLtB dt t then lastOnlyPast rest t else .ok false

/-- One per-day block of the "schedule changed" message: `eventDate` and
`scheduleApprovedSince` with the "?" defaults, and the (from, to) pairs of
the queue's intervals (an empty list renders as the "no outages" line). -/
structure ChangePart where
  date : String
  updated : String
  outages : List (Option String × Option String)
deriving DecidableEq

def buildParts (current : RawSchedule) (queue : String) : List ChangePart :=
  current.map (fun day =>
    ⟨day.eventDate.getD "?", day.scheduleApprovedSince.getD "?",
     ((alookup day.queues queue).getD []).map (fun x => (x.fromTime, x.toTime))⟩)

/-- The notification passed to `send_telegram`, kept structurally: the
queue id and display name making up the label, plus the variable content. -/
inductive Notification where
  | cancelled (queue : String) (queueName : Option String) (dateStr : String)
  | changed (queue : String) (queueName : Option String) (parts : List ChangePart)
deriving DecidableEq

/-- The four classification outcomes, plus the two ways a cycle ends
without classifying: all fetch attempts unavailable, or an exception
caught by the outer handler of `check_and_alert`. -/
inductive Outcome where
  | skippedUnavailable
  | errored
  | ignored
  | cancelled
  | changed
  | unchanged
deriving DecidableEq

/-- The classification section of `check_and_alert` (lines 158-226 of the
source), from `current` and `last` to the notification sent, the value
written to the cache, and the outcome; `.error` is an exception reaching
the outer handler. -/
def classify (current last : RawSchedule) (queue : String) (queueName : Option String)
    (today : Date) : Except Unit (Option Notification × Option RawSchedule × Outcome) :=
  let current_relevant := extract_relevant current queue today
  let last_relevant0 := extract_relevant last queue today
  match refilterLast last_relevant0 today with
  | .error e => .error e
  | .ok last_relevant =>
    match lastOnlyPast (last.map (fun d => d.eventDate)) today with
    | .error e => .error e
    | .ok last_only_past =>
      if current = ([] : RawSchedule) then
        if last_only_past then .ok (none, some current, .ignored)
        else .ok (some (.cancelled queue queueName (dateToStr today)), some current, .cancelled)
      else if dictBeq current_relevant last_relevant then .ok (none, none, .unchanged)
      else .ok (some (.changed queue queueName (buildParts current queue)), some current, .changed)

/-- The cache file for a queue: absent (never seen), stored with a
schedule, or present but unreadable/unparsable. -/
inductive CacheState where
  | absent
  | stored (data : RawSchedule)
  | corrupt

/-- `load_last(queue)`: `none` when the file does not exist; the stored
schedule otherwise; `.error` when reading or parsing the file raises. -/
def load_last : CacheState → Except Unit (Option RawSchedule)
  | .absent => .ok none
  | .stored d => .ok (some d)
  | .corrupt => .error ()

/-- The retry loop at the top of `check_and_alert`: up to 3 fetch attempts
(`fetches i` is the result of attempt `i`), with a `time.sleep(2)` after
every failed attempt.  Returns the fetched value, the number of attempts
made, and the list of sleep durations. -/
def retryLoop (fetches : Nat → Option RawSchedule) : Option RawSchedule × Nat × List Nat :=
  match fetches 0 with
  | some c => (some c, 1, [])
  | none =>
    match fetches 1 with
    | some c => (some c, 2, [2])
    | none =>
      match fetches 2 with
      | some c => (some c, 3, [2, 2])
      | none => (none, 3, [2, 2, 2])

/-- The observable effects of one `check_and_alert(queue, url)` call. -/
structure RunResult where
  attempts : Nat
  delays : List Nat
  cacheRead : Bool
  sent : Option Notification
  cacheWrite : Option RawSchedule
  outcome : Outcome
deriving DecidableEq

/-- `check_and_alert(queue, url)` from the source: retry the fetch, give
up if all attempts are unavailable, read the cache (`load_last(queue) or
[]`), classify, and record the notification and cache write.  Exceptions
from the cache read or classification reach the outer handler, which logs
and returns. -/
def check_and_alert (fetches : Nat → Option RawSchedule) (cache : CacheState)
    (queue : String) (queueName : Option String) (today : Date) : RunResult :=
  match retryLoop fetches with
  | (none, attempts, delays) => ⟨attempts, delays, false, none, none, .skippedUnavailable⟩
  | (some current, attempts, delays) =>
    match load_last cache with
    | .error _ => ⟨attempts, delays, true, none, none, .errored⟩
    | .ok lastOpt =>
      match classify current (lastOpt.getD []) queue queueName today with
      | .error _ => ⟨attempts, delays, true, none, none, .errored⟩
      | .ok (sent, write, oc) => ⟨attempts, delays, true, sent, write, oc⟩

/-- A day entry whose `eventDate` is present and parses (survives the
`except: continue` of `extract_relevant`). -/
def parsesB (day : DayEntry) : Bool :=
  match day.eventDate with
  | none => false
  | some s => (parseDate s).isSome

/-- A day entry that `extract_relevant` keeps: its `eventDate` parses and
is today-or-future. -/
def survivesB (day : DayEntry) (t : Date) : Bool :=
  match day.eventDate with
  | none => false
  | some ds =>
    match parseDate ds with
    | none => false
    | some dt => !dateLtB dt t

/-- A day entry that `extract_relevant` keeps under the date key `k`. -/
def keyHitB (day : DayEntry) (t : Date) (k : String) : Bool :=
  survivesB day t && decide (day.eventDate = some k)

/-- Every non-empty `eventDate` string in the schedule parses as
DD.MM.YYYY, so the `last_only_past` generator cannot raise. -/
def wellFormedLastB (last : RawSchedule) : Bool :=
  last.all (fun e =>
    match e.eventDate with
    | none => true
    | some s => if s = "" then true else (parseDate s).isSome)

/-- Every `eventDate` in the schedule is absent or parses to a date
strictly before `t` (the spec's `lastAllPast`, vacuously true on `[]`). -/
def allPastB (last : RawSchedule) (t : Date) : Bool :=
  last.all (fun e =>
    match e.eventDate with
    | none => true
    | some s =>
      match parseDate s with
      | none => false
      | some dt => dateLtB dt t)

/-- Some entry of the schedule has an `eventDate` that parses and is
today-or-future relative to `t`. -/
def hasTodayOrFutureB (last : RawSchedule) (t : Date) : Bool :=
  last.any (fun e =>
    match e.eventDate with
    | none => false
    | some s =>
      match parseDate s with
      | none => false
      | some dt => !dateLtB dt t)

/-! ## Lemmas about the normalizer and the classifier's derived values -/

theorem mem_dictInsert {α : Type} (m : List (String × α)) (k : String) (v : α)
    (p : String × α) (hp : p ∈ dictInsert m k v) : p = (k, v) ∨ p ∈ m := by
  induction m with
  | nil => simpa [dictInsert] using hp
  | cons q rest ih =>
    obtain ⟨a, b⟩ := q
    rw [dictInsert] at hp
    by_cases hak : a = k
    · simp only [hak, if_true] at hp
      rcases List.mem_cons.1 hp with h | h
      · exact Or.inl h
      · exact Or.inr (List.mem_cons_of_mem _ h)
    · simp only [hak, if_false] at hp
      rcases List.mem_cons.1 hp with h | h
      · exact Or.inr (h ▸ List.mem_cons_self _ _)
      · rcases ih h with h' | h'
        · exact Or.inl h'
        · exact Or.inr (List.mem_cons_of_mem _ h')

theorem alookup_dictInsert_self {α : Type} (m : List (String × α)) (k : String) (v : α) :
    alookup (dictInsert m k v) k = some v := by
  induction m with
  | nil => simp [dictInsert, alookup]
  | cons q rest ih =>
    obtain ⟨a, b⟩ := q
    rw [dictInsert]
    by_cases hak : a = k
    · simp [hak, alookup]
    · simp [hak, alookup, ih]

theorem alookup_dictInsert_ne {α : Type} (m : List (String × α)) (k k' : String) (v : α)
    (h : k' ≠ k) : alookup (dictInsert m k v) k' = alookup m k' := by
  have hk : ¬(k = k') := fun h' => h h'.symm
  induction m with
  | nil => simp [dictInsert, alookup, hk]
  | cons q rest ih =>
    obtain ⟨a, b⟩ := q
    rw [dictInsert]
    by_cases hak : a = k
    · subst hak
      simp [alookup, hk]
    · by_cases hak' : a = k'
      · subst hak'
        simp [alookup, hk, h]
      · simp [alookup, hak', hak, hk, ih]

theorem extractGo_keys (S : RawSchedule) (q : String) (t : Date) (acc : NormMap)
    (hacc : ∀ p ∈ acc, ∃ dt, parseDate p.1 = some dt ∧ dateLtB dt t = false) :
    ∀ p ∈ extractGo S q t acc, ∃ dt, parseDate p.1 = some dt ∧ dateLtB dt t = false := by
  induction S generalizing acc with
  | nil => exact hacc
  | cons day rest ih =>
    cases hed : day.eventDate with
    | none =>
      simp only [extractGo, hed]
      exact ih acc hacc
    | some ds =>
      simp only [extractGo, hed]
      cases hp : parseDate ds with
      | none => exact ih acc hacc
      | some dt =>
        cases hlt : dateLtB dt t with
        | true =>
          simp only [hlt, if_true]
          exact ih acc hacc
        | false =>
          simp only [hlt, Bool.false_eq_true, if_false]
          refine ih _ (fun p hpmem => ?_)
          rcases mem_dictInsert _ _ _ _ hpmem with h | h
          · subst h
            exact ⟨dt, hp, hlt⟩
          · exact hacc p h

/-- Every key of a normalized schedule parses and is today-or-future. -/
theorem extract_relevant_keys (S : RawSchedule) (q : String) (t : Date) :
    ∀ p ∈ extract_relevant S q t, ∃ dt, parseDate p.1 = some dt ∧ dateLtB dt t = false :=
  extractGo_keys S q t [] (by simp)

theorem refilterLast_ok (m : NormMap) (t : Date)
    (h : ∀ p ∈ m, ∃ dt, parseDate p.1 = some dt ∧ dateLtB dt t = false) :
    refilterLast m t = .ok m := by
  induction m with
  | nil => rfl
  | cons p rest ih =>
    obtain ⟨dt, hp, hlt⟩ := h p (List.mem_cons_self _ _)
    rw [refilterLast]
    rw [show p = (p.1, p.2) from rfl] at *
    simp only [hp, ih (fun p hp => h p (List.mem_cons_of_mem _ hp)), hlt,
      Bool.false_eq_true, if_false]

/-- The past-days refilter in `check_and_alert` is the identity on a
freshly normalized schedule (same `asOfDate`), and in particular raises no
exception. -/
theorem refilter_extract (S : RawSchedule) (q : String) (t : Date) :
    refilterLast (extract_relevant S q t) t = .ok (extract_relevant S q t) :=
  refilterLast_ok _ _ (extract_relevant_keys S q t)

theorem parseDate_empty : parseDate "" = none := rfl

theorem lastOnlyPast_of_allPast (last : RawSchedule) (t : Date)
    (h : allPastB last t = true) :
    lastOnlyPast (last.map (fun d => d.eventDate)) t = .ok true := by
  induction last with
  | nil => rfl
  | cons e rest ih =>
    rw [allPastB, List.all_cons, Bool.and_eq_true] at h
    obtain ⟨hhead, htail⟩ := h
    have htail' := ih htail
    rw [List.map_cons]
    cases hed : e.eventDate with
    | none => simpa [lastOnlyPast] using htail'
    | some s =>
      rw [hed] at hhead
      have hh2 : (match parseDate s with
          | none => false
          | some dt => dateLtB dt t) = true := hhead
      cases hp : parseDate s with
      | none => rw [hp] at hh2; simp at hh2
      | some dt =>
        rw [hp] at hh2
        have hlt : dateLtB dt t = true := hh2
        have hs : ¬(s = "") := by
          intro h0
          rw [h0, parseDate_empty] at hp
          exact Option.noConfusion hp
        simp [lastOnlyPast, hs, hp, hlt, htail']

theorem lastOnlyPast_of_future (last : RawSchedule) (t : Date)
    (hwf : wellFormedLastB last = true) (hfut : hasTodayOrFutureB last t = true) :
    lastOnlyPast (last.map (fun d => d.eventDate)) t = .ok false := by
  induction last with
  | nil => simp [hasTodayOrFutureB] at hfut
  | cons e rest ih =>
    rw [wellFormedLastB, List.all_cons, Bool.and_eq_true] at hwf
    obtain ⟨hwhead, hwtail⟩ := hwf
    rw [hasTodayOrFutureB, List.any_cons, Bool.or_eq_true] at hfut
    rw [List.map_cons]
    cases hed : e.eventDate with
    | none =>
      rcases hfut with hh | ht
      · rw [hed] at hh; simp at hh
      · simpa [lastOnlyPast] using ih hwtail ht
    | some s =>
      rw [hed] at hwhead
      have hw2 : (if s = "" then true else (parseDate s).isSome) = true := hwhead
      by_cases hs : s = ""
      · rcases hfut with hh | ht
        · rw [hed] at hh
          have hh2 : (match parseDate s with
              | none => false
              | some dt => !dateLtB dt t) = true := hh
          rw [hs, parseDate_empty] at hh2
          simp at hh2
        · simpa [lastOnlyPast, hs] using ih hwtail ht
      · rw [if_neg hs] at hw2
        cases hp : parseDate s with
        | none => rw [hp] at hw2; simp at hw2
        | some dt =>
          cases hlt : dateLtB dt t with
          | true =>
            rcases hfut with hh | ht
            · rw [hed] at hh
              have hh2 : (match parseDate s with
                  | none => false
                  | some dt => !dateLtB dt t) = true := hh
              rw [hp] at hh2
              have : (!dateLtB dt t) = true := hh2
              rw [hlt] at this
              simp at this
            · simpa [lastOnlyPast, hs, hp, hlt] using ih hwtail ht
          | false => simp [lastOnlyPast, hs, hp, hlt]

theorem lastOnlyPast_ok_of_wf (last : RawSchedule) (t : Date)
    (hwf : wellFormedLastB last = true) :
    ∃ b, lastOnlyPast (last.map (fun d => d.eventDate)) t = .ok b := by
  induction last with
  | nil => exact ⟨true, rfl⟩
  | cons e rest ih =>
    rw [wellFormedLastB, List.all_cons, Bool.and_eq_true] at hwf
    obtain ⟨hwhead, hwtail⟩ := hwf
    rw [List.map_cons]
    cases hed : e.eventDate with
    | none =>
      obtain ⟨b, hb⟩ := ih hwtail
      exact ⟨b, by simpa [lastOnlyPast] using hb⟩
    | some s =>
      rw [hed] at hwhead
      have hw2 : (if s = "" then true else (parseDate s).isSome) = true := hwhead
      by_cases hs : s = ""
      · obtain ⟨b, hb⟩ := ih hwtail
        exact ⟨b, by simpa [lastOnlyPast, hs] using hb⟩
      · rw [if_neg hs] at hw2
        cases hp : parseDate s with
        | none => rw [hp] at hw2; simp at hw2
        | some dt =>
          cases hlt : dateLtB dt t with
          | true =>
            obtain ⟨b, hb⟩ := ih hwtail
            exact ⟨b, by simpa [lastOnlyPast, hs, hp, hlt] using hb⟩
          | false => exact ⟨false, by simp [lastOnlyPast, hs, hp, hlt]⟩

theorem extractGo_filter (S : RawSchedule) (q : String) (t : Date) (acc : NormMap) :
    extractGo S q t acc = extractGo (S.filter parsesB) q t acc := by
  induction S generalizing acc with
  | nil => rfl
  | cons day rest ih =>
    cases hed : day.eventDate with
    | none =>
      have hpb : parsesB day = false := by simp [parsesB, hed]
      rw [List.filter_cons, hpb]
      simp only [Bool.false_eq_true, if_false]
      simp only [extractGo, hed]
      exact ih acc
    | some s =>
      have hpb : parsesB day = (parseDate s).isSome := by simp [parsesB, hed]
      cases hp : parseDate s with
      | none =>
        rw [hp] at hpb
        rw [List.filter_cons, hpb]
        simp only [Option.isSome_none, Bool.false_eq_true, if_false]
        simp only [extractGo, hed, hp]
        exact ih acc
      | some dt =>
        rw [hp] at hpb
        rw [List.filter_cons, hpb]
        simp only [Option.isSome_some, if_true]
        simp only [extractGo, hed, hp]
        cases hlt : dateLtB dt t with
        | true =>
          simp only [hlt, if_true]
          exact ih acc
        | false =>
          simp only [hlt, Bool.false_eq_true, if_false]
          exact ih _

/-- Looking up a date key in the normalized schedule finds the projection
of the last surviving entry bearing that key, if any. -/
theorem alookup_extractGo (S : RawSchedule) (q : String) (t : Date) (k : String)
    (acc : NormMap) :
    alookup (extractGo S q t acc) k =
      match (S.filter (fun day => keyHitB day t k)).getLast? with
      | some day => some (projectDay day q)
      | none => alookup acc k := by
  induction S generalizing acc with
  | nil => rfl
  | cons day rest ih =>
    cases hed : day.eventDate with
    | none =>
      have hkh : keyHitB day t k = false := by simp [keyHitB, survivesB, hed]
      rw [List.filter_cons, hkh]
      simp only [Bool.false_eq_true, if_false]
      simp only [extractGo, hed]
      exact ih acc
    | some ds =>
      cases hp : parseDate ds with
      | none =>
        have hkh : keyHitB day t k = false := by simp [keyHitB, survivesB, hed, hp]
        rw [List.filter_cons, hkh]
        simp only [Bool.false_eq_true, if_false]
        simp only [extractGo, hed, hp]
        exact ih acc
      | some dt =>
        cases hlt : dateLtB dt t with
        | true =>
          have hkh : keyHitB day t k = false := by simp [keyHitB, survivesB, hed, hp, hlt]
          rw [List.filter_cons, hkh]
          simp only [Bool.false_eq_true, if_false]
          simp only [extractGo, hed, hp, hlt, if_true]
          exact ih acc
        | false =>
          simp only [extractGo, hed, hp, hlt, Bool.false_eq_true, if_false]
          by_cases hk : ds = k
          · subst hk
            have hkh : keyHitB day t ds = true := by
              simp [keyHitB, survivesB, hed, hp, hlt]
            rw [List.filter_cons, hkh]
            simp only [if_true]
            rw [ih]
            cases hf : rest.filter (fun day => keyHitB day t ds) with
            | nil => simp [alookup_dictInsert_self]
            | cons a l =>
              rw [List.getLast?_cons_cons]
              cases hgl : (a :: l).getLast? with
              | none =>
                rw [List.getLast?_eq_none_iff] at hgl
                exact List.noConfusion hgl
              | some d => simp
          · have hkh : keyHitB day t k = false := by simp [keyHitB, hed, hk]
            rw [List.filter_cons, hkh]
            simp only [Bool.false_eq_true, if_false]
            rw [ih]
            cases hf : (rest.filter (fun day => keyHitB day t k)).getLast? with
            | none => simp [alookup_dictInsert_ne _ _ _ _ (fun h => hk h.symm)]
            | some d => simp

/-- If `e` is the last entry of the schedule bearing the surviving date
key `k`, lookup at `k` in the normalized schedule gives `e`'s projection. -/
theorem alookup_extract_lastkey (S1 S2 : RawSchedule) (e : DayEntry) (q k : String)
    (t dt : Date) (h1 : e.eventDate = some k) (hp : parseDate k = some dt)
    (hge : dateLtB dt t = false) (h2 : ∀ e' ∈ S2, e'.eventDate ≠ some k) :
    alookup (extract_relevant (S1 ++ e :: S2) q t) k = some (projectDay e q) := by
  rw [extract_relevant, alookup_extractGo]
  have hke : keyHitB e t k = true := by
    simp [keyHitB, survivesB, h1, hp, hge]
  have hS2 : S2.filter (fun day => keyHitB day t k) = [] := by
    rw [List.filter_eq_nil_iff]
    intro a ha
    simp [keyHitB, h2 a ha]
  rw [List.filter_append, List.filter_cons, hke]
  simp only [if_true, hS2]
  rw [show (S1.filter (fun day => keyHitB day t k)) ++ e :: ([] : RawSchedule) =
      (S1.filter (fun day => keyHitB day t k)) ++ [e] from rfl]
  rw [List.getLast?_concat]

/-! ## Claim theorems -/

/-- C3: for every cached last schedule in which every eventDate is strictly
before `asOfDate` (vacuously including an empty last), if the successfully
fetched current schedule is empty, the outcome is Ignored: no notification
is sent and the cache is still overwritten with the new empty snapshot. -/
theorem c3_rollover_ignored (last : RawSchedule) (q : String) (qn : Option String)
    (t : Date) (hpast : allPastB last t = true) :
    check_and_alert (fun _ => some []) (.stored last) q qn t =
      ⟨1, [], true, none, some [], .ignored⟩ := by
  have h1 := refilter_extract last q t
  have h2 := lastOnlyPast_of_allPast last t hpast
  simp [check_and_alert, retryLoop, load_last, classify, h1, h2]

/-- Witness for C3 at the spec's Scenario A: last has a single outage on
10.01.2025, asOfDate is 11.01.2025, current is empty. -/
theorem c3_rollover_ignored_witness :
    allPastB [⟨some "10.01.2025", none, [("Q", [⟨none, some "10:00", some "14:00", none, []⟩])]⟩]
      ⟨2025, 1, 11⟩ = true
    ∧ check_and_alert (fun _ => some [])
        (.stored [⟨some "10.01.2025", none, [("Q", [⟨none, some "10:00", some "14:00", none, []⟩])]⟩])
        "Q" none ⟨2025, 1, 11⟩ = ⟨1, [], true, none, some [], .ignored⟩ :=
  ⟨by decide, c3_rollover_ignored _ "Q" none _ (by decide)⟩

/-- C2 counterexample: the cached last schedule
`[{eventDate: "xx"}, {eventDate: "10.01.2030"}]` contains an entry whose
eventDate parses and is today-or-future (10.01.2030 versus asOfDate
11.01.2025), and the fetched current schedule is empty, yet the outcome is
not Cancelled and no notification is sent: the malformed eventDate "xx"
raises inside the `last_only_past` generator before any branch is reached,
the outer handler swallows the exception, and the cycle ends with no
cache write. -/
theorem c2_cancelled_counterexample :
    hasTodayOrFutureB [⟨some "xx", none, []⟩, ⟨some "10.01.2030", none, []⟩]
      ⟨2025, 1, 11⟩ = true
    ∧ check_and_alert (fun _ => some [])
        (.stored [⟨some "xx", none, []⟩, ⟨some "10.01.2030", none, []⟩])
        "Q" none ⟨2025, 1, 11⟩ = ⟨1, [], true, none, none, .errored⟩ := by
  decide

/-- C2 (amended): for every cached last schedule all of whose non-empty
eventDate strings parse as DD.MM.YYYY and which contains at least one entry
whose eventDate is today-or-future relative to `asOfDate`, if the
successfully fetched current schedule is empty, the outcome is Cancelled:
a "schedule cancelled / no outages" notification is sent and the cache is
overwritten with the empty current snapshot. -/
theorem c2_cancelled (last : RawSchedule) (q : String) (qn : Option String) (t : Date)
    (hwf : wellFormedLastB last = true) (hfut : hasTodayOrFutureB last t = true) :
    check_and_alert (fun _ => some []) (.stored last) q qn t =
      ⟨1, [], true, some (.cancelled q qn (dateToStr t)), some [], .cancelled⟩ := by
  have h1 := refilter_extract last q t
  have h2 := lastOnlyPast_of_future last t hwf hfut
  simp [check_and_alert, retryLoop, load_last, classify, h1, h2]

/-- Witness for C2 at the spec's Scenario B: same last as Scenario A but
asOfDate 09.01.2025, so 10.01.2025 is still future; current is empty. -/
theorem c2_cancelled_witness :
    wellFormedLastB [⟨some "10.01.2025", none, [("Q", [⟨none, some "10:00", some "14:00", none, []⟩])]⟩] = true
    ∧ hasTodayOrFutureB [⟨some "10.01.2025", none, [("Q", [⟨none, some "10:00", some "14:00", none, []⟩])]⟩]
        ⟨2025, 1, 9⟩ = true
    ∧ check_and_alert (fun _ => some [])
        (.stored [⟨some "10.01.2025", none, [("Q", [⟨none, some "10:00", some "14:00", none, []⟩])]⟩])
        "Q" (some "Guzara") ⟨2025, 1, 9⟩ =
      ⟨1, [], true, some (.cancelled "Q" (some "Guzara") (dateToStr ⟨2025, 1, 9⟩)),
        some [], .cancelled⟩ :=
  ⟨by decide, by decide, c2_cancelled _ "Q" (some "Guzara") _ (by decide) (by decide)⟩

/-- C1 counterexample: `current` is non-empty (a successful fetch) and its
normalized mapping differs from the cached last schedule's, yet the
outcome is not Changed and no notification is emitted and the cache is not
overwritten: the cached entry's malformed eventDate "garbage" raises in the
`last_only_past` generator before the comparison, and the outer handler
swallows the exception. -/
theorem c1_changed_iff_counterexample :
    ([⟨some "01.01.2031", some "now", [("Q", [⟨some "2", some "10:00", some "14:00", some "off", []⟩])]⟩] : RawSchedule) ≠ []
    ∧ dictBeq
        (extract_relevant [⟨some "01.01.2031", some "now", [("Q", [⟨some "2", some "10:00", some "14:00", some "off", []⟩])]⟩] "Q" ⟨2025, 1, 11⟩)
        (extract_relevant [⟨some "garbage", none, []⟩] "Q" ⟨2025, 1, 11⟩) = false
    ∧ check_and_alert
        (fun _ => some [⟨some "01.01.2031", some "now", [("Q", [⟨some "2", some "10:00", some "14:00", some "off", []⟩])]⟩])
        (.stored [⟨some "garbage", none, []⟩]) "Q" none ⟨2025, 1, 11⟩ =
      ⟨1, [], true, none, none, .errored⟩ := by
  decide

/-- C1 (amended): for every non-empty current schedule (a fetch that did
not fail) and every cached last schedule all of whose non-empty eventDate
strings parse as DD.MM.YYYY, the outcome is Changed if and only if the
normalized today-or-future mappings of current and last differ; when they
differ, a "schedule changed" notification is emitted and the cache is
overwritten with current; when they are equal, no notification is
produced and the cache is not rewritten. -/
theorem c1_changed_iff (current last : RawSchedule) (q : String) (qn : Option String)
    (t : Date) (hcur : current ≠ []) (hwf : wellFormedLastB last = true) :
    ((check_and_alert (fun _ => some current) (.stored last) q qn t).outcome = .changed
      ↔ dictBeq (extract_relevant current q t) (extract_relevant last q t) = false)
    ∧ (dictBeq (extract_relevant current q t) (extract_relevant last q t) = false →
        (check_and_alert (fun _ => some current) (.stored last) q qn t).sent =
            some (.changed q qn (buildParts current q))
          ∧ (check_and_alert (fun _ => some current) (.stored last) q qn t).cacheWrite =
            some current)
    ∧ (dictBeq (extract_relevant current q t) (extract_relevant last q t) = true →
        (check_and_alert (fun _ => some current) (.stored last) q qn t).sent = none
          ∧ (check_and_alert (fun _ => some current) (.stored last) q qn t).cacheWrite = none
          ∧ (check_and_alert (fun _ => some current) (.stored last) q qn t).outcome
              = .unchanged) := by
  obtain ⟨b, hb⟩ := lastOnlyPast_ok_of_wf last t hwf
  have h1 := refilter_extract last q t
  cases hq : dictBeq (extract_relevant current q t) (extract_relevant last q t) with
  | true => simp [check_and_alert, retryLoop, load_last, classify, h1, hb, hcur, hq]
  | false => simp [check_and_alert, retryLoop, load_last, classify, h1, hb, hcur, hq]

/-- Witness for C1 at the spec's Scenario C: current moves the outage on
12.01.2025 from 10:00-14:00 to 10:00-15:00, asOfDate 11.01.2025; the
normalized mappings differ, the outcome is Changed and a notification is
produced. -/
theorem c1_changed_iff_witness :
    ([⟨some "12.01.2025", some "upd", [("Q", [⟨some "5", some "10:00", some "15:00", some "off", []⟩])]⟩] : RawSchedule) ≠ []
    ∧ wellFormedLastB [⟨some "12.01.2025", none, [("Q", [⟨some "4", some "10:00", some "14:00", some "off", []⟩])]⟩] = true
    ∧ (((check_and_alert
          (fun _ => some [⟨some "12.01.2025", some "upd", [("Q", [⟨some "5", some "10:00", some "15:00", some "off", []⟩])]⟩])
          (.stored [⟨some "12.01.2025", none, [("Q", [⟨some "4", some "10:00", some "14:00", some "off", []⟩])]⟩])
          "Q" none ⟨2025, 1, 11⟩).outcome = .changed
        ↔ dictBeq
            (extract_relevant [⟨some "12.01.2025", some "upd", [("Q", [⟨some "5", some "10:00", some "15:00", some "off", []⟩])]⟩] "Q" ⟨2025, 1, 11⟩)
            (extract_relevant [⟨some "12.01.2025", none, [("Q", [⟨some "4", some "10:00", some "14:00", some "off", []⟩])]⟩] "Q" ⟨2025, 1, 11⟩) = false)
      ∧ (dictBeq
            (extract_relevant [⟨some "12.01.2025", some "upd", [("Q", [⟨some "5", some "10:00", some "15:00", some "off", []⟩])]⟩] "Q" ⟨2025, 1, 11⟩)
            (extract_relevant [⟨some "12.01.2025", none, [("Q", [⟨some "4", some "10:00", some "14:00", some "off", []⟩])]⟩] "Q" ⟨2025, 1, 11⟩) = false →
          (check_and_alert
              (fun _ => some [⟨some "12.01.2025", some "upd", [("Q", [⟨some "5", some "10:00", some "15:00", some "off", []⟩])]⟩])
              (.stored [⟨some "12.01.2025", none, [("Q", [⟨some "4", some "10:00", some "14:00", some "off", []⟩])]⟩])
              "Q" none ⟨2025, 1, 11⟩).sent =
              some (.changed "Q" none
                (buildParts [⟨some "12.01.2025", some "upd", [("Q", [⟨some "5", some "10:00", some "15:00", some "off", []⟩])]⟩] "Q"))
            ∧ (check_and_alert
                (fun _ => some [⟨some "12.01.2025", some "upd", [("Q", [⟨some "5", some "10:00", some "15:00", some "off", []⟩])]⟩])
                (.stored [⟨some "12.01.2025", none, [("Q", [⟨some "4", some "10:00", some "14:00", some "off", []⟩])]⟩])
                "Q" none ⟨2025, 1, 11⟩).cacheWrite =
              some [⟨some "12.01.2025", some "upd", [("Q", [⟨some "5", some "10:00", some "15:00", some "off", []⟩])]⟩])
      ∧ (dictBeq
            (extract_relevant [⟨some "12.01.2025", some "upd", [("Q", [⟨some "5", some "10:00", some "15:00", some "off", []⟩])]⟩] "Q" ⟨2025, 1, 11⟩)
            (extract_relevant [⟨some "12.01.2025", none, [("Q", [⟨some "4", some "10:00", some "14:00", some "off", []⟩])]⟩] "Q" ⟨2025, 1, 11⟩) = true →
          (check_and_alert
              (fun _ => some [⟨some "12.01.2025", some "upd", [("Q", [⟨some "5", some "10:00", some "15:00", some "off", []⟩])]⟩])
              (.stored [⟨some "12.01.2025", none, [("Q", [⟨some "4", some "10:00", some "14:00", some "off", []⟩])]⟩])
              "Q" none ⟨2025, 1, 11⟩).sent = none
            ∧ (check_and_alert
                (fun _ => some [⟨some "12.01.2025", some "upd", [("Q", [⟨some "5", some "10:00", some "15:00", some "off", []⟩])]⟩])
                (.stored [⟨some "12.01.2025", none, [("Q", [⟨some "4", some "10:00", some "14:00", some "off", []⟩])]⟩])
                "Q" none ⟨2025, 1, 11⟩).cacheWrite = none
            ∧ (check_and_alert
                (fun _ => some [⟨some "12.01.2025", some "upd", [("Q", [⟨some "5", some "10:00", some "15:00", some "off", []⟩])]⟩])
                (.stored [⟨some "12.01.2025", none, [("Q", [⟨some "4", some "10:00", some "14:00", some "off", []⟩])]⟩])
                "Q" none ⟨2025, 1, 11⟩).outcome = .unchanged)) :=
  ⟨by decide, by decide,
    c1_changed_iff _ _ "Q" none ⟨2025, 1, 11⟩ (by decide) (by decide)⟩

/-- C4 counterexample: the schedule contains two surviving entries with
the same eventDate "02.01.2031" (today-or-future for asOfDate 01.01.2030);
the first carries one interval for queue "Q", the second carries none.
The claim says the result maps the date of every surviving entry to that
entry's projected interval list, but for the first entry the lookup gives
the second entry's (empty) list instead. -/
theorem c4_normalize_counterexample :
    (⟨some "02.01.2031", none, [("Q", [⟨some "4", some "08:00", some "12:00", some "off", []⟩])]⟩ : DayEntry) ∈
      ([⟨some "02.01.2031", none, [("Q", [⟨some "4", some "08:00", some "12:00", some "off", []⟩])]⟩,
        ⟨some "02.01.2031", none, [("Q", [])]⟩] : RawSchedule)
    ∧ parseDate "02.01.2031" = some ⟨2031, 1, 2⟩
    ∧ dateLtB ⟨2031, 1, 2⟩ ⟨2030, 1, 1⟩ = false
    ∧ alookup (extract_relevant
        [⟨some "02.01.2031", none, [("Q", [⟨some "4", some "08:00", some "12:00", some "off", []⟩])]⟩,
         ⟨some "02.01.2031", none, [("Q", [])]⟩] "Q" ⟨2030, 1, 1⟩) "02.01.2031"
      ≠ some (projectDay
          ⟨some "02.01.2031", none, [("Q", [⟨some "4", some "08:00", some "12:00", some "off", []⟩])]⟩ "Q") := by
  decide

/-- C4 (amended): for every raw schedule, queue id and date, (i) the
normalized mapping contains no date key strictly before the date, (ii)
entries whose eventDate is absent or fails to parse as DD.MM.YYYY are
silently dropped (normalization is unchanged by filtering them out), and
(iii) for every surviving entry that is the LAST entry bearing its date
string, the result maps that date string to the entry's interval list for
the queue projected to {shutdownHours, from, to, status} — the empty
sequence when the queue is absent from that day's queues map (earlier
duplicates are overwritten, see C9). -/
theorem c4_normalize (q : String) (t : Date) :
    (∀ S : RawSchedule, ∀ p ∈ extract_relevant S q t,
        ∃ dt, parseDate p.1 = some dt ∧ dateLtB dt t = false)
    ∧ (∀ S : RawSchedule, extract_relevant S q t = extract_relevant (S.filter parsesB) q t)
    ∧ (∀ (S1 S2 : RawSchedule) (e : DayEntry) (k : String) (dt : Date),
        e.eventDate = some k → parseDate k = some dt → dateLtB dt t = false →
        (∀ e' ∈ S2, e'.eventDate ≠ some k) →
        alookup (extract_relevant (S1 ++ e :: S2) q t) k =
          some (((alookup e.queues q).getD []).map simplify)) :=
  ⟨fun S => extract_relevant_keys S q t,
   fun S => extractGo_filter S q t [],
   fun S1 S2 e k dt h1 hp hge h2 => alookup_extract_lastkey S1 S2 e q k t dt h1 hp hge h2⟩

/-- Witness for C4: a single surviving entry whose queues map does not
contain the queue "Q"; the normalized mapping sends its date to the empty
sequence. -/
theorem c4_normalize_witness :
    (⟨some "01.02.2031", none, [("R", [])]⟩ : DayEntry).eventDate = some "01.02.2031"
    ∧ parseDate "01.02.2031" = some ⟨2031, 2, 1⟩
    ∧ dateLtB ⟨2031, 2, 1⟩ ⟨2030, 1, 1⟩ = false
    ∧ alookup (extract_relevant [⟨some "01.02.2031", none, [("R", [])]⟩] "Q" ⟨2030, 1, 1⟩)
        "01.02.2031" =
      some (((alookup (⟨some "01.02.2031", none, [("R", [])]⟩ : DayEntry).queues "Q").getD []).map simplify) :=
  ⟨rfl, by decide, by decide,
    (c4_normalize "Q" ⟨2030, 1, 1⟩).2.2 [] [] ⟨some "01.02.2031", none, [("R", [])]⟩
      "01.02.2031" ⟨2031, 2, 1⟩ rfl (by decide) (by decide) (by simp)⟩

/-- C9: when a raw schedule contains two day entries with the same
today-or-future eventDate string (the second being the last entry bearing
that date), normalization keeps only the intervals of the later entry: the
lookup at that date gives the later entry's projected interval list. -/
theorem c9_duplicate_overwrite (S1 S2 S3 : RawSchedule) (e1 e2 : DayEntry)
    (q k : String) (t dt : Date) (_h1 : e1.eventDate = some k)
    (h2 : e2.eventDate = some k) (hp : parseDate k = some dt)
    (hge : dateLtB dt t = false) (h3 : ∀ e ∈ S3, e.eventDate ≠ some k) :
    alookup (extract_relevant (S1 ++ e1 :: S2 ++ e2 :: S3) q t) k =
      some (((alookup e2.queues q).getD []).map simplify) := by
  have h := alookup_extract_lastkey (S1 ++ e1 :: S2) S3 e2 q k t dt h2 hp hge h3
  rw [show S1 ++ e1 :: S2 ++ e2 :: S3 = (S1 ++ e1 :: S2) ++ e2 :: S3 by
    rw [List.append_assoc, List.cons_append]]
  exact h

/-- Witness for C9: two entries dated 05.05.2031; the first has one
interval for "Q", the second none; lookup yields the empty list. -/
theorem c9_duplicate_overwrite_witness :
    parseDate "05.05.2031" = some ⟨2031, 5, 5⟩
    ∧ dateLtB ⟨2031, 5, 5⟩ ⟨2030, 1, 1⟩ = false
    ∧ alookup (extract_relevant
        [⟨some "05.05.2031", none, [("Q", [⟨some "4", some "08:00", some "12:00", some "off", []⟩])]⟩,
         ⟨some "05.05.2031", none, [("Q", [])]⟩] "Q" ⟨2030, 1, 1⟩) "05.05.2031" =
      some (((alookup (⟨some "05.05.2031", none, [("Q", [])]⟩ : DayEntry).queues "Q").getD []).map simplify) :=
  ⟨by decide, by decide,
    c9_duplicate_overwrite [] [] []
      ⟨some "05.05.2031", none, [("Q", [⟨some "4", some "08:00", some "12:00", some "off", []⟩])]⟩
      ⟨some "05.05.2031", none, [("Q", [])]⟩
      "Q" "05.05.2031" ⟨2030, 1, 1⟩ ⟨2031, 5, 5⟩ rfl rfl (by decide) (by decide) (by simp)⟩

theorem check_retry_fields (f : Nat → Option RawSchedule) (cache : CacheState)
    (q : String) (qn : Option String) (t : Date) :
    (check_and_alert f cache q qn t).attempts = (retryLoop f).2.1
    ∧ (check_and_alert f cache q qn t).delays = (retryLoop f).2.2 := by
  rcases hr : retryLoop f with ⟨c?, a, d⟩
  cases c? with
  | none => simp [check_and_alert, hr]
  | some current =>
    cases hl : load_last cache with
    | error e => simp [check_and_alert, hr, hl]
    | ok lastOpt =>
      rcases hc : classify current (lastOpt.getD []) q qn t with e | ⟨s, w, oc⟩
      · simp [check_and_alert, hr, hl, hc]
      · simp [check_and_alert, hr, hl, hc]

theorem retryLoop_attempts_le (f : Nat → Option RawSchedule) :
    (retryLoop f).2.1 ≤ 3 ∧ ∀ x ∈ (retryLoop f).2.2, x = 2 := by
  rw [retryLoop]
  cases h0 : f 0 with
  | some c => simp
  | none =>
    cases h1 : f 1 with
    | some c => simp
    | none =>
      cases h2 : f 2 with
      | some c => simp
      | none => simp

theorem retryLoop_all_none (f : Nat → Option RawSchedule)
    (h : ∀ i, i < 3 → f i = none) :
    retryLoop f = (none, 3, [2, 2, 2]) := by
  have h0 := h 0 (by norm_num)
  have h1 := h 1 (by norm_num)
  have h2 := h 2 (by norm_num)
  simp [retryLoop, h0, h1, h2]

/-- C5: the poll cycle makes at most 3 fetch attempts per queue, every
delay it sleeps between attempts is the fixed 2 seconds, and if all 3
attempts yield Unavailable the queue is skipped for this cycle atomically:
the cache entry is not read or mutated and no notification is sent. -/
theorem c5_retry (f : Nat → Option RawSchedule) (cache : CacheState) (q : String)
    (qn : Option String) (t : Date) :
    ((check_and_alert f cache q qn t).attempts ≤ 3
      ∧ ∀ x ∈ (check_and_alert f cache q qn t).delays, x = 2)
    ∧ ((∀ i, i < 3 → f i = none) →
        check_and_alert f cache q qn t =
          ⟨3, [2, 2, 2], false, none, none, .skippedUnavailable⟩) := by
  refine ⟨?_, ?_⟩
  · obtain ⟨ha, hd⟩ := check_retry_fields f cache q qn t
    obtain ⟨hb, hb2⟩ := retryLoop_attempts_le f
    rw [ha, hd]
    exact ⟨hb, hb2⟩
  · intro h
    have hr := retryLoop_all_none f h
    simp [check_and_alert, hr]

/-- Witness for C5: all three attempts return the Unavailable sentinel;
the run makes 3 attempts, sleeps 2 seconds each time, and ends without
reading the cache, writing it, or sending a notification. -/
theorem c5_retry_witness :
    check_and_alert (fun _ => none) CacheState.absent "5" none ⟨2025, 1, 1⟩ =
      ⟨3, [2, 2, 2], false, none, none, .skippedUnavailable⟩ :=
  (c5_retry (fun _ => none) CacheState.absent "5" none ⟨2025, 1, 1⟩).2 (fun _ _ => rfl)

/-- C6: `fetch_schedule` returns the Unavailable sentinel (and raises no
exception) on a transport error, on HTTP 403 or 503 regardless of body, on
a Content-Type that does not contain "application/json" regardless of
body, and on a body that fails to parse as JSON. -/
theorem c6_fetch_unavailable :
    fetch_schedule .transportError = none
    ∧ (∀ ct b, fetch_schedule (.response 403 ct b) = none)
    ∧ (∀ ct b, fetch_schedule (.response 503 ct b) = none)
    ∧ (∀ s ct b, strContainsB ct "application/json" = false →
        fetch_schedule (.response s ct b) = none)
    ∧ (∀ s ct p, fetch_schedule (.response s ct (.malformed p)) = none) := by
  refine ⟨rfl, ?_, ?_, ?_, ?_⟩
  · intro ct b
    simp [fetch_schedule]
  · intro ct b
    simp [fetch_schedule]
  · intro s ct b h
    by_cases h35 : s = 403 ∨ s = 503
    · simp [fetch_schedule, h35]
    · simp [fetch_schedule, h35, h]
  · intro s ct p
    by_cases h35 : s = 403 ∨ s = 503
    · simp [fetch_schedule, h35]
    · by_cases hct : strContainsB ct "application/json"
      · simp [fetch_schedule, h35, hct]
      · simp [fetch_schedule, h35, hct]

/-- Witness for C6: a 200 response whose Content-Type is an HTML challenge
page yields the sentinel even though its body is valid JSON. -/
theorem c6_fetch_unavailable_witness :
    strContainsB "text/html; charset=utf-8" "application/json" = false
    ∧ fetch_schedule (.response 200 "text/html; charset=utf-8" (.json (.arr []))) = none :=
  ⟨by decide,
    c6_fetch_unavailable.2.2.2.1 200 "text/html; charset=utf-8" (.json (.arr [])) (by decide)⟩

/-- C7 counterexample: with a cache record that exists but cannot be
parsed, classification does NOT proceed with an empty last schedule: the
exception from the cache read is swallowed by the per-queue handler and
the cycle ends with no notification and no cache write, whereas the same
fetch against an absent cache record classifies Changed and notifies. -/
theorem c7_cache_load_counterexample :
    (check_and_alert
        (fun _ => some [⟨some "01.01.2031", none, [("Q", [⟨none, some "10:00", some "12:00", none, []⟩])]⟩])
        CacheState.corrupt "Q" none ⟨2025, 10, 12⟩).outcome = .errored
    ∧ (check_and_alert
        (fun _ => some [⟨some "01.01.2031", none, [("Q", [⟨none, some "10:00", some "12:00", none, []⟩])]⟩])
        CacheState.corrupt "Q" none ⟨2025, 10, 12⟩).sent = none
    ∧ (check_and_alert
        (fun _ => some [⟨some "01.01.2031", none, [("Q", [⟨none, some "10:00", some "12:00", none, []⟩])]⟩])
        CacheState.corrupt "Q" none ⟨2025, 10, 12⟩).cacheWrite = none
    ∧ (check_and_alert
        (fun _ => some [⟨some "01.01.2031", none, [("Q", [⟨none, some "10:00", some "12:00", none, []⟩])]⟩])
        CacheState.absent "Q" none ⟨2025, 10, 12⟩).outcome = .changed
    ∧ (check_and_alert
        (fun _ => some [⟨some "01.01.2031", none, [("Q", [⟨none, some "10:00", some "12:00", none, []⟩])]⟩])
        CacheState.absent "Q" none ⟨2025, 10, 12⟩).sent ≠ none := by
  decide

/-- C7 (amended): a cache load of a never-seen queue id returns Absent and
downstream classification treats it exactly as an empty last schedule (the
whole run is identical to one with an empty stored schedule); but a cache
read failure is NOT treated as "no prior record": the exception reaches
the per-queue handler and the queue is skipped this cycle with no
notification and no cache mutation. -/
theorem c7_cache_load :
    (∀ (f : Nat → Option RawSchedule) (q : String) (qn : Option String) (t : Date),
        check_and_alert f CacheState.absent q qn t =
          check_and_alert f (CacheState.stored []) q qn t)
    ∧ (∀ (cur : RawSchedule) (q : String) (qn : Option String) (t : Date),
        check_and_alert (fun _ => some cur) CacheState.corrupt q qn t =
          ⟨1, [], true, none, none, .errored⟩) := by
  refine ⟨?_, ?_⟩
  · intro f q qn t
    rcases hr : retryLoop f with ⟨c?, a, d⟩
    cases c? with
    | none => simp [check_and_alert, hr]
    | some current => simp [check_and_alert, hr, load_last]
  · intro cur q qn t
    rfl

/-- C8: the classifier is deterministic — two runs on identical inputs
(fetch results, cache state, queue, display name, asOfDate) yield the same
outcome, the same notification decision and the same cache-write decision. -/
theorem c8_deterministic (f : Nat → Option RawSchedule) (cache : CacheState)
    (q : String) (qn : Option String) (t : Date) (r1 r2 : RunResult)
    (h1 : r1 = check_and_alert f cache q qn t)
    (h2 : r2 = check_and_alert f cache q qn t) :
    r1.outcome = r2.outcome ∧ r1.sent = r2.sent ∧ r1.cacheWrite = r2.cacheWrite := by
  subst h1
  subst h2
  exact ⟨rfl, rfl, rfl⟩

/-- Witness for C8: two runs on the same concrete inputs agree. -/
theorem c8_deterministic_witness :
    (check_and_alert (fun _ => none) CacheState.absent "8" none ⟨2025, 1, 1⟩).outcome =
        (check_and_alert (fun _ => none) CacheState.absent "8" none ⟨2025, 1, 1⟩).outcome
    ∧ (check_and_alert (fun _ => none) CacheState.absent "8" none ⟨2025, 1, 1⟩).sent =
        (check_and_alert (fun _ => none) CacheState.absent "8" none ⟨2025, 1, 1⟩).sent
    ∧ (check_and_alert (fun _ => none) CacheState.absent "8" none ⟨2025, 1, 1⟩).cacheWrite =
        (check_and_alert (fun _ => none) CacheState.absent "8" none ⟨2025, 1, 1⟩).cacheWrite :=
  c8_deterministic _ _ _ _ _ _ _ rfl rfl

/-- C10: a 200 response with JSON content-type and body `null` makes
`fetch_schedule` return the same Unavailable sentinel as a transport
error (Python's `r.json()` returns `None` for a `null` body), so the poll
cycle retries it and, on exhaustion, skips the queue with no cache read,
no cache mutation and no notification — it is never classified as an empty
schedule (Cancelled or Ignored). -/
theorem c10_null_body :
    fetch_schedule (.response 200 "application/json" (.json .null)) = none
    ∧ fetch_schedule .transportError = none
    ∧ (∀ (cache : CacheState) (q : String) (qn : Option String) (t : Date),
        check_and_alert (fun _ => none) cache q qn t =
          ⟨3, [2, 2, 2], false, none, none, .skippedUnavailable⟩) :=
  ⟨rfl, rfl, fun _ _ _ _ => rfl⟩

end Svitlo
